import Mathlib

/-!
Verification development for the News Aggregation System server
(`src/index.js`).  The JavaScript program is shallowly embedded below:

* the Mongo/Mongoose article store is a `List StoredArticle`;
* `Article.updateOne({article_id}, {$set: doc}, {upsert: true})` is
  `updateOneUpsert` (Mongoose semantics: `undefined` values are stripped
  from the update, `{timestamps: true}` adds `updatedAt` to every `$set`
  and `createdAt` on insert);
* the ingestion routine `fetchAndStoreNews` and the three HTTP handlers
  (`GET /api/news`, `GET /api/filters`, `GET /api/status`) are pure
  functions of their store/feed inputs;
* host-language primitives (`parseInt`, `new Date(string)`,
  `String.prototype.toLowerCase/trim/split`, case-insensitive `$regex`)
  are modelled explicitly; each model carries a comment stating its scope.

All definitions are executable; theorems about the claims follow at the end.
-/

/-! ### Models of JavaScript string/number primitives -/

/-- Whitespace recognised by the model of `String.prototype.trim`
(space, tab, newline, carriage return — the ASCII fragment of the JS
WhiteSpace/LineTerminator sets). -/
def jsWhitespace (c : Char) : Bool :=
  c = ' ' || c = '\t' || c = '\n' || c = '\r'

/-- Model of JS `String.prototype.trim`: remove leading and trailing
whitespace. -/
def jsTrim (s : String) : String :=
  ⟨((s.data.dropWhile jsWhitespace).reverse.dropWhile jsWhitespace).reverse⟩

/-- The 26 ASCII uppercase/lowercase letter pairs. -/
def asciiLowerPairs : List (Char × Char) :=
  [('A', 'a'), ('B', 'b'), ('C', 'c'), ('D', 'd'), ('E', 'e'), ('F', 'f'),
   ('G', 'g'), ('H', 'h'), ('I', 'i'), ('J', 'j'), ('K', 'k'), ('L', 'l'),
   ('M', 'm'), ('N', 'n'), ('O', 'o'), ('P', 'p'), ('Q', 'q'), ('R', 'r'),
   ('S', 's'), ('T', 't'), ('U', 'u'), ('V', 'v'), ('W', 'w'), ('X', 'x'),
   ('Y', 'y'), ('Z', 'z')]

/-- Model of JS `String.prototype.toLowerCase` on a single character
(ASCII fragment; Unicode lowering is out of scope of the embedding). -/
def jsLowerChar (c : Char) : Char :=
  ((asciiLowerPairs.find? (fun p => p.1 = c)).map Prod.snd).getD c

/-- ASCII uppercase letter test (the only case distinction the embedding
needs). -/
def isUpperAscii (c : Char) : Bool :=
  asciiLowerPairs.any (fun p => p.1 = c)

/-- Model of JS `String.prototype.toLowerCase` (ASCII fragment). -/
def lowerStr (s : String) : String :=
  ⟨s.data.map jsLowerChar⟩

/-- Model of JS `String.prototype.split(",")` on the character list:
`""` yields `[""]`, separators delimit possibly empty groups. -/
def splitCommaChars : List Char → List (List Char)
  | [] => [[]]
  | c :: cs =>
    if c = ',' then [] :: splitCommaChars cs
    else
      match splitCommaChars cs with
      | [] => [[c]]
      | g :: gs => (c :: g) :: gs

/-- Model of JS `String.prototype.split(",")`. -/
def splitComma (s : String) : List String :=
  (splitCommaChars s.data).map (fun cs => ⟨cs⟩)

/-- `country.split(",").map((c) => c.trim().toLowerCase())` — the parsed
form of a comma-separated query parameter (src/index.js lines 171, 177). -/
def splitParam (s : String) : List String :=
  (splitComma s).map (fun c => lowerStr (jsTrim c))

/-- Digits-to-Nat helper for the `parseInt` model. -/
def digitsToNat (ds : List Char) : Nat :=
  ds.foldl (fun acc c => acc * 10 + (c.toNat - 48)) 0

/-- Model of JS `parseInt` applied to a string: skip leading whitespace,
optional sign, then the maximal leading run of decimal digits; `none`
models `NaN` (no digits).  (The hexadecimal `0x` autodetection of the
host `parseInt` is outside the model; no claim depends on it.) -/
def parseIntJS (s : String) : Option Int :=
  let t := (jsTrim s).data
  let signRest : Int × List Char :=
    match t with
    | '-' :: r => (-1, r)
    | '+' :: r => (1, r)
    | r => (1, r)
  let digits := signRest.2.takeWhile Char.isDigit
  if digits.isEmpty then none
  else some (signRest.1 * (digitsToNat digits : Int))

/-- Abstract model of the host date parser used by `new Date(string)`:
strings of decimal digits denote a millisecond timestamp, every other
string is unparseable.  `none` models the JS `Invalid Date` value.  The
claims settled below depend only on the parseable/unparseable distinction,
never on which concrete strings parse. -/
def jsDateParse (s : String) : Option Nat :=
  if s.data ≠ [] ∧ s.data.all Char.isDigit then some (digitsToNat s.data)
  else none

/-- Model of `end.setHours(23, 59, 59, 999)` on a timestamp (UTC model of
the handler's end-of-day adjustment, src/index.js line 154). -/
def jsEndOfDay (t : Nat) : Nat :=
  (t / 86400000) * 86400000 + 86399999

/-- JS truthiness of an optional string value (`undefined` and `""` are
falsy). -/
def jsTruthy (s : Option String) : Bool :=
  match s with
  | none => false
  | some v => decide (v ≠ "")

/-! ### Model of the case-insensitive `$regex` matching

The three `$regex, $options: "i"` filters of `GET /api/news` pass the raw
query string to the store as a PCRE pattern.  The embedding models the
fragment of PCRE consisting of patterns whose characters are either
ordinary (non-metacharacter) literals or the wildcard `.` (match any
single character).  Patterns containing any other PCRE metacharacter
(`\ ^ $ | ? * + ( ) [ ] \x7b \x7d`) carry quantifier/group/class
semantics this model does not implement, so every positive theorem about
pattern matching below hypothesises a pattern free of all PCRE
metacharacters — on that common sub-fragment the model and PCRE agree
(a metacharacter-free pattern is a literal sequence in both).  The
wildcard is modelled because one in-model metacharacter suffices to
exhibit the pattern/substring divergence. -/

/-- The PCRE metacharacters (outside character classes): a pattern
containing none of these is matched purely literally by PCRE. -/
def pcreMetachars : List Char :=
  ['\\', '^', '$', '.', '|', '?', '*', '+', '(', ')', '[', ']', '{', '}']

inductive RChar where
  | lit (c : Char)
  | anyChar
deriving DecidableEq, Repr

/-- Compile a pattern string into the modelled regex fragment: `.` is the
wildcard, everything else a literal.  Faithful to PCRE only on the
modelled fragment (no metacharacter except `.`): a pattern containing
other metacharacters would need quantifier/group/class semantics and is
outside the model — theorems about matching therefore assume the pattern
free of `pcreMetachars`. -/
def compileRegex (s : String) : List RChar :=
  s.data.map (fun c => if c = '.' then RChar.anyChar else RChar.lit c)

/-- One pattern character against one text character, case-insensitively
(the `"i"` option). -/
def rcharMatches (rc : RChar) (c : Char) : Bool :=
  match rc with
  | RChar.anyChar => true
  | RChar.lit l => jsLowerChar l = jsLowerChar c

/-- Does the pattern match a prefix of the text? -/
def matchHere : List RChar → List Char → Bool
  | [], _ => true
  | _ :: _, [] => false
  | rc :: rs, c :: cs => rcharMatches rc c && matchHere rs cs

/-- Unanchored regex search: does the pattern match anywhere in the text? -/
def regexSearch (p : List RChar) : List Char → Bool
  | [] => matchHere p []
  | c :: cs => matchHere p (c :: cs) || regexSearch p cs

/-- Case-insensitive substring occurrence — the relation the spec ascribes
to the `search` parameter ("case-insensitive substring match"). -/
def containsCI (needle hay : String) : Prop :=
  needle.data.map jsLowerChar <:+: hay.data.map jsLowerChar

instance (needle hay : String) : Decidable (containsCI needle hay) := by
  unfold containsCI
  infer_instance

/-! ### The data model

`RawArticle` is one element of the feed's `results` array; `none` models
an absent (`undefined`) field.  `article_id` is required by the schema.
`sentiment_stats` is an opaque value (schema type `Mixed`) modelled as its
raw payload text. -/

structure RawArticle where
  article_id : String
  title : Option String
  link : Option String
  keywords : Option (List String)
  creator : Option (List String)
  video_url : Option String
  description : Option String
  content : Option String
  pubDate : Option String
  image_url : Option String
  source_id : Option String
  source_priority : Option Int
  source_url : Option String
  source_icon : Option String
  language : Option String
  country : Option (List String)
  category : Option (List String)
  ai_tag : Option String
  sentiment : Option String
  sentiment_stats : Option String
  ai_region : Option String
  ai_org : Option String
  duplicate : Option Bool
  datatype : Option String
deriving DecidableEq, Repr

/-- The normalized document `doc` built by `fetchAndStoreNews`
(src/index.js lines 79–104).  Fields of `Option` type are `undefined`
when `none` (and are then stripped from the `$set` by Mongoose);
`pubDate` is always present in the update: `none` is the explicit `null`
of line 88, `some none` is the JS `Invalid Date` produced by an
unparseable source value, `some (some t)` a parsed timestamp. -/
structure NormalizedDoc where
  article_id : String
  title : Option String
  link : Option String
  keywords : List String
  creator : List String
  video_url : Option String
  description : Option String
  content : Option String
  pubDate : Option (Option Nat)
  image_url : Option String
  source_id : Option String
  source_priority : Option Int
  source_url : Option String
  source_icon : Option String
  language : Option String
  country : List String
  category : List String
  ai_tag : Option String
  sentiment : Option String
  sentiment_stats : Option String
  ai_region : Option String
  ai_org : Option String
  duplicate : Option Bool
  datatype : String
deriving DecidableEq, Repr

/-- One persisted record of the Article collection.  `Option` fields are
absent from the document when `none`; the four list fields, `pubDate` and
`datatype` are written by every upsert and therefore always present.
`createdAt`/`updatedAt` come from the schema's `{timestamps: true}`. -/
structure StoredArticle where
  article_id : String
  title : Option String
  link : Option String
  keywords : List String
  creator : List String
  video_url : Option String
  description : Option String
  content : Option String
  pubDate : Option (Option Nat)
  image_url : Option String
  source_id : Option String
  source_priority : Option Int
  source_url : Option String
  source_icon : Option String
  language : Option String
  country : List String
  category : List String
  ai_tag : Option String
  sentiment : Option String
  sentiment_stats : Option String
  ai_region : Option String
  ai_org : Option String
  duplicate : Option Bool
  datatype : String
  createdAt : Nat
  updatedAt : Nat
deriving DecidableEq, Repr

/-- Lines 79–104 of src/index.js: build the normalized document from a
feed article.  `art.keywords || []` etc. default the list fields; line 88
(`art.pubDate ? new Date(art.pubDate) : null`) yields `null` exactly when
the raw value is absent or `""` (falsy), otherwise the host-parsed date
(possibly invalid); line 103 defaults falsy `datatype` to `"news"`. -/
def buildDoc (art : RawArticle) : NormalizedDoc :=
  { article_id := art.article_id
    title := art.title
    link := art.link
    keywords := art.keywords.getD []
    creator := art.creator.getD []
    video_url := art.video_url
    description := art.description
    content := art.content
    pubDate :=
      match art.pubDate with
      | some s => if s = "" then none else some (jsDateParse s)
      | none => none
    image_url := art.image_url
    source_id := art.source_id
    source_priority := art.source_priority
    source_url := art.source_url
    source_icon := art.source_icon
    language := art.language
    country := art.country.getD []
    category := art.category.getD []
    ai_tag := art.ai_tag
    sentiment := art.sentiment
    sentiment_stats := art.sentiment_stats
    ai_region := art.ai_region
    ai_org := art.ai_org
    duplicate := art.duplicate
    datatype :=
      match art.datatype with
      | some s => if s = "" then "news" else s
      | none => "news" }

/-! ### The upsert (`Article.updateOne({article_id}, {$set: doc}, {upsert:true})`) -/

/-- `$set` of one optional field under Mongoose semantics: an `undefined`
(`none`) value is stripped from the update, so the stored value is kept;
a present value replaces it. -/
def setOpt {α : Type} (new old : Option α) : Option α :=
  match new with
  | some v => some v
  | none => old

/-- Apply `{$set: doc}` (plus the automatic `updatedAt` timestamp) to an
existing record. -/
def applySet (now : Nat) (doc : NormalizedDoc) (r : StoredArticle) : StoredArticle :=
  { article_id := doc.article_id
    title := setOpt doc.title r.title
    link := setOpt doc.link r.link
    keywords := doc.keywords
    creator := doc.creator
    video_url := setOpt doc.video_url r.video_url
    description := setOpt doc.description r.description
    content := setOpt doc.content r.content
    pubDate := doc.pubDate
    image_url := setOpt doc.image_url r.image_url
    source_id := setOpt doc.source_id r.source_id
    source_priority := setOpt doc.source_priority r.source_priority
    source_url := setOpt doc.source_url r.source_url
    source_icon := setOpt doc.source_icon r.source_icon
    language := setOpt doc.language r.language
    country := doc.country
    category := doc.category
    ai_tag := setOpt doc.ai_tag r.ai_tag
    sentiment := setOpt doc.sentiment r.sentiment
    sentiment_stats := setOpt doc.sentiment_stats r.sentiment_stats
    ai_region := setOpt doc.ai_region r.ai_region
    ai_org := setOpt doc.ai_org r.ai_org
    duplicate := setOpt doc.duplicate r.duplicate
    datatype := doc.datatype
    createdAt := r.createdAt
    updatedAt := now }

/-- The document created by an upsert that found no match: the `$set`
fields (stripped of `undefined`) plus both timestamps. -/
def insertDoc (now : Nat) (doc : NormalizedDoc) : StoredArticle :=
  { article_id := doc.article_id
    title := doc.title
    link := doc.link
    keywords := doc.keywords
    creator := doc.creator
    video_url := doc.video_url
    description := doc.description
    content := doc.content
    pubDate := doc.pubDate
    image_url := doc.image_url
    source_id := doc.source_id
    source_priority := doc.source_priority
    source_url := doc.source_url
    source_icon := doc.source_icon
    language := doc.language
    country := doc.country
    category := doc.category
    ai_tag := doc.ai_tag
    sentiment := doc.sentiment
    sentiment_stats := doc.sentiment_stats
    ai_region := doc.ai_region
    ai_org := doc.ai_org
    duplicate := doc.duplicate
    datatype := doc.datatype
    createdAt := now
    updatedAt := now }

/-- The record a literal full-field replacement would produce — the
behaviour §3/§4.1 of the spec describe ("replace all fields with the new
values", absent payload fields included).  Used only to compare the spec's
wording with the code's actual `$set` semantics. -/
def specFullReplace (now : Nat) (doc : NormalizedDoc) (old : StoredArticle) : StoredArticle :=
  { insertDoc now doc with createdAt := old.createdAt }

/-- Outcome counts reported by the store driver for one `updateOne`. -/
structure UpdateResult where
  upsertedCount : Nat
  modifiedCount : Nat
deriving DecidableEq, Repr

/-- `Article.updateOne({article_id: art.article_id}, {$set: doc},
{upsert: true})` (src/index.js lines 106–110) against a list-modelled
collection: replace the first record with the matching `article_id`
(the unique index guarantees there is at most one), else append a new
document.  `modifiedCount` is 1 only if the stored document actually
changed. -/
def updateOneUpsert (now : Nat) (doc : NormalizedDoc) :
    List StoredArticle → List StoredArticle × UpdateResult
  | [] => ([insertDoc now doc], ⟨1, 0⟩)
  | r :: rs =>
    if r.article_id = doc.article_id then
      ((applySet now doc r) :: rs, ⟨0, if applySet now doc r = r then 0 else 1⟩)
    else
      let p := updateOneUpsert now doc rs
      (r :: p.1, p.2)

/-- The per-batch upsert loop of `fetchAndStoreNews` (lines 78–114):
sequential upserts, counting `inserted` when `result.upsertedCount` is
truthy, else `updated` when `result.modifiedCount` is truthy.  Returns
(store, inserted, updated). -/
def storeBatch (now : Nat) : List RawArticle → List StoredArticle →
    List StoredArticle × Nat × Nat
  | [], store => (store, 0, 0)
  | art :: rest, store =>
    let sr := updateOneUpsert now (buildDoc art) store
    let acc := storeBatch now rest sr.1
    (acc.1,
     (if sr.2.upsertedCount ≠ 0 then acc.2.1 + 1 else acc.2.1),
     (if sr.2.upsertedCount = 0 ∧ sr.2.modifiedCount ≠ 0 then acc.2.2 + 1
      else acc.2.2))

/-- Outcome of the HTTP fetch stage of one ingestion run.  `failure`
models every case in which `axios.get` rejects (network error, non-2xx
error body, parse failure); `success results` models a 2xx response,
where `results` is `response.data?.results` (`none` when the body lacks
the array). -/
inductive FetchOutcome where
  | failure (msg : String)
  | success (results : Option (List RawArticle))
deriving Repr

/-- Result of one `fetchAndStoreNews` run: the store after the run, the
two counters, and the console log. -/
structure RunResult where
  store : List StoredArticle
  inserted : Nat
  updated : Nat
  log : List String
deriving Repr

/-- `fetchAndStoreNews` (src/index.js lines 58–120).  The whole body is a
single try/catch: a fetch failure is logged and the run returns with the
store untouched; an empty batch logs and returns; otherwise the batch is
upserted sequentially and a summary line is logged.  `now` is the run's
clock value used for the schema timestamps. -/
def fetchAndStoreNews (now : Nat) (outcome : FetchOutcome)
    (store : List StoredArticle) : RunResult :=
  let start := "[" ++ toString now ++ "] Fetching news from NewsData.io..."
  match outcome with
  | FetchOutcome.failure msg =>
    { store := store, inserted := 0, updated := 0
      log := [start, "Fetch error: " ++ msg] }
  | FetchOutcome.success results =>
    let articles := results.getD []
    if articles.length = 0 then
      { store := store, inserted := 0, updated := 0
        log := [start, "No articles returned from API"] }
    else
      let out := storeBatch now articles store
      let i := out.2.1
      let u := out.2.2
      let n := articles.length
      { store := out.1, inserted := i, updated := u
        log := [start,
                "Done: " ++ toString i ++ " inserted, " ++ toString u ++
                " updated, " ++ toString n ++ " total"] }

/-! ### The query service (`GET /api/news`, `/api/filters`, `/api/status`) -/

/-- The `filter` object built by the `GET /api/news` handler
(src/index.js lines 146–192).  `pubDateGte`/`pubDateLte` carry the parsed
date bound (`some none` = invalid date); `countryIn` is the `$in` list,
`categoryAll` the `$all` list, `creatorRegex`/`searchOr` the raw
case-insensitive regex pattern strings. -/
structure ArticleFilter where
  pubDateGte : Option (Option Nat)
  pubDateLte : Option (Option Nat)
  creatorRegex : Option String
  language : Option String
  countryIn : Option (List String)
  categoryAll : Option (List String)
  datatype : Option String
  searchOr : Option String
deriving DecidableEq, Repr

/-- Lines 146–192: compose the Mongo filter from the query parameters.
Each `if (param)` is JS truthiness on the raw string. -/
def buildFilter (q_startDate q_endDate q_author q_language q_country
    q_category q_datatype q_search : Option String) : ArticleFilter :=
  { pubDateGte :=
      if jsTruthy q_startDate then some (jsDateParse (q_startDate.getD "")) else none
    pubDateLte :=
      if jsTruthy q_endDate then
        some ((jsDateParse (q_endDate.getD "")).map jsEndOfDay)
      else none
    creatorRegex := if jsTruthy q_author then some (q_author.getD "") else none
    language := if jsTruthy q_language then some (lowerStr (q_language.getD "")) else none
    countryIn := if jsTruthy q_country then some (splitParam (q_country.getD "")) else none
    categoryAll := if jsTruthy q_category then some (splitParam (q_category.getD "")) else none
    datatype := if jsTruthy q_datatype then some (lowerStr (q_datatype.getD "")) else none
    searchOr := if jsTruthy q_search then some (q_search.getD "") else none }

/-- `pubDate: {$gte, $lte}` clause.  MongoDB range comparisons against a
`Date` bound match only records whose `pubDate` is an actual date (type
bracketing: a `null` pubDate never satisfies a date-valued `$gte`/`$lte`).
An invalid bound (`some none`, which Mongoose would reject at cast time)
matches nothing. -/
def evalDateRange (f : ArticleFilter) (r : StoredArticle) : Bool :=
  (match f.pubDateGte with
   | none => true
   | some none => false
   | some (some d) =>
     match r.pubDate with
     | some (some t) => decide (d ≤ t)
     | _ => false) &&
  (match f.pubDateLte with
   | none => true
   | some none => false
   | some (some d) =>
     match r.pubDate with
     | some (some t) => decide (t ≤ d)
     | _ => false)

/-- `creator: {$elemMatch: {$regex: author, $options: "i"}}`: some entry
of `creator` matches the pattern case-insensitively. -/
def evalAuthor (f : ArticleFilter) (r : StoredArticle) : Bool :=
  match f.creatorRegex with
  | none => true
  | some pat => r.creator.any (fun e => regexSearch (compileRegex pat) e.data)

/-- `language: <lowercased value>` equality clause (a missing stored field
does not equal a string value). -/
def evalLanguage (f : ArticleFilter) (r : StoredArticle) : Bool :=
  match f.language with
  | none => true
  | some v =>
    match r.language with
    | some l => decide (l = v)
    | none => false

/-- `country: {$in: countries}`: the stored array intersects the query
list (MongoDB `$in` on an array field matches when any element is in the
list). -/
def evalCountry (f : ArticleFilter) (r : StoredArticle) : Bool :=
  match f.countryIn with
  | none => true
  | some l => r.country.any (fun c => decide (c ∈ l))

/-- `category: {$all: categories}`: every query value occurs in the stored
array (conjunctive). -/
def evalCategory (f : ArticleFilter) (r : StoredArticle) : Bool :=
  match f.categoryAll with
  | none => true
  | some l => l.all (fun c => decide (c ∈ r.category))

/-- `datatype: <lowercased value>` equality clause.  The stored field is
always present (every upsert writes it). -/
def evalDatatype (f : ArticleFilter) (r : StoredArticle) : Bool :=
  match f.datatype with
  | none => true
  | some v => decide (r.datatype = v)

/-- `$or: [{title: {$regex: search, "i"}}, {description: ...}]`: the raw
search string, used as a pattern, matches title or description; a missing
stored field does not match. -/
def evalSearch (f : ArticleFilter) (r : StoredArticle) : Bool :=
  match f.searchOr with
  | none => true
  | some pat =>
    (match r.title with
     | some t => regexSearch (compileRegex pat) t.data
     | none => false) ||
    (match r.description with
     | some d => regexSearch (compileRegex pat) d.data
     | none => false)

/-- Conjunction of all clauses of the composed Mongo filter. -/
def evalFilter (f : ArticleFilter) (r : StoredArticle) : Bool :=
  evalDateRange f r && evalAuthor f r && evalLanguage f r &&
  evalCountry f r && evalCategory f r && evalDatatype f r && evalSearch f r

/-- Sort key for `.sort({pubDate: -1})`: dates above `null` (BSON type
order), keyed so that larger means more recent. -/
def sortKey (r : StoredArticle) : Nat :=
  match r.pubDate with
  | some (some t) => t + 1
  | _ => 0

/-- Stable insertion of `a` into a list sorted by `le` (descending runs
use a descending `le`). -/
def insertSortedBy {α : Type} (le : α → α → Bool) (a : α) : List α → List α
  | [] => [a]
  | x :: xs => if le a x then a :: x :: xs else x :: insertSortedBy le a xs

/-- Stable insertion sort by a boolean relation (executable model of the
store's sort). -/
def sortBy {α : Type} (le : α → α → Bool) : List α → List α
  | [] => []
  | x :: xs => insertSortedBy le x (sortBy le xs)

/-- Descending-by-`pubDate` ordering relation. -/
def descByPubDate (a b : StoredArticle) : Bool :=
  decide (sortKey b ≤ sortKey a)

/-- `.sort({pubDate: -1})` — the matching records ordered by `pubDate`
descending (a deterministic, stable model of the store's sort). -/
def sortByPubDateDesc (l : List StoredArticle) : List StoredArticle :=
  sortBy descByPubDate l

/-- `.skip(skip).limit(limit)` over the sorted matches.  `none` models a
`NaN` skip or limit reaching the driver — behaviour the source leaves to
the driver and the model leaves empty.  A limit of 0 applies no row cap
(MongoDB semantics); negative values (unreachable in the settled claims)
are clamped to 0. -/
def findSortedPage (matched : List StoredArticle) (skip lim : Option Int) :
    List StoredArticle :=
  match skip, lim with
  | some sk, some li =>
    let afterSkip := (sortByPubDateDesc matched).drop sk.toNat
    if li = 0 then afterSkip else afterSkip.take li.toNat
  | _, _ => []

/-- NaN-propagating subtraction on JS numbers (finite values and NaN). -/
def optSub (a b : Option Int) : Option Int :=
  match a, b with
  | some x, some y => some (x - y)
  | _, _ => none

/-- NaN-propagating multiplication on JS numbers (finite values and NaN). -/
def optMul (a b : Option Int) : Option Int :=
  match a, b with
  | some x, some y => some (x * y)
  | _, _ => none

/-- A JS number as it appears in the `totalPages` field: finite, `NaN`,
or `Infinity`. -/
inductive JSNum where
  | num (n : Int)
  | nan
  | posInf
deriving DecidableEq, Repr

/-- `Math.ceil(total / parseInt(limit))`: `NaN` limit gives `NaN`;
division by 0 gives `Infinity` (or `NaN` for `0/0`); a positive limit
gives the ceiling; a negative limit the (nonpositive) ceiling of the
negative quotient. -/
def jsCeilDiv (total : Nat) (lim : Option Int) : JSNum :=
  match lim with
  | none => JSNum.nan
  | some l =>
    if l = 0 then (if total = 0 then JSNum.nan else JSNum.posInf)
    else if 0 < l then JSNum.num (((total + l.toNat - 1) / l.toNat : Nat) : Int)
    else JSNum.num (-((total / l.natAbs : Nat) : Int))

/-- The query parameters of one `GET /api/news` request, as destructured
on lines 133–144.  `none` is an absent parameter. -/
structure NewsQuery where
  startDate : Option String
  endDate : Option String
  author : Option String
  language : Option String
  country : Option String
  category : Option String
  datatype : Option String
  page : Option String
  limit : Option String
  search : Option String
deriving DecidableEq, Repr

/-- A `NewsQuery` with every parameter absent. -/
def emptyQuery : NewsQuery :=
  { startDate := none, endDate := none, author := none, language := none
    country := none, category := none, datatype := none, page := none
    limit := none, search := none }

/-- The composed filter of a request (lines 146–192). -/
def filterOf (q : NewsQuery) : ArticleFilter :=
  buildFilter q.startDate q.endDate q.author q.language q.country
    q.category q.datatype q.search

/-- `parseInt(page)` with the destructuring default `page = 1`:
the default applies only when the parameter is absent. -/
def pageParam (q : NewsQuery) : Option Int :=
  match q.page with
  | none => some 1
  | some s => parseIntJS s

/-- `parseInt(limit)` with the destructuring default `limit = 20`. -/
def limitParam (q : NewsQuery) : Option Int :=
  match q.limit with
  | none => some 20
  | some s => parseIntJS s

/-- `const skip = (parseInt(page) - 1) * parseInt(limit)` (line 194). -/
def skipParam (q : NewsQuery) : Option Int :=
  optMul (optSub (pageParam q) (some 1)) (limitParam q)

/-- The JSON body of a successful `GET /api/news` response (lines
205–211).  `page` is `Option Int` because `parseInt(page)` may be `NaN`
(serialized as `null`). -/
structure NewsResponse where
  success : Bool
  total : Nat
  page : Option Int
  totalPages : JSNum
  articles : List StoredArticle
deriving DecidableEq, Repr

/-- What an Express handler produces for one request: a 200 JSON body, an
error-status JSON body from a `catch` block, or an uncaught rejection that
escapes the handler (no response is written). -/
inductive HandlerResult (α : Type) where
  | ok (body : α)
  | errorJson (status : Nat) (error : String)
  | uncaught (error : String)
deriving DecidableEq, Repr

/-- The `GET /api/news` handler (lines 131–216).  `storeResult` models the
awaited store operations: `Except.error` is a rejected store promise,
caught by the handler's try/catch and surfaced as a 500 JSON error. -/
def newsHandler (q : NewsQuery) (storeResult : Except String (List StoredArticle)) :
    HandlerResult NewsResponse :=
  match storeResult with
  | Except.error e => HandlerResult.errorJson 500 e
  | Except.ok docs =>
    let f := filterOf q
    let matched := docs.filter (fun r => evalFilter f r)
    HandlerResult.ok
      { success := true
        total := matched.length
        page := pageParam q
        totalPages := jsCeilDiv matched.length (limitParam q)
        articles := findSortedPage matched (skipParam q) (limitParam q) }

/-- The JSON body of a successful `GET /api/filters` response. -/
structure FiltersResponse where
  success : Bool
  languages : List String
  countries : List String
  categories : List String
  datatypes : List String
deriving DecidableEq, Repr

/-- Ascending lexicographic comparison of strings by character code
(model of the default JS array sort on strings). -/
def strLeJS : List Char → List Char → Bool
  | [], _ => true
  | _ :: _, [] => false
  | a :: as_, b :: bs =>
    if a = b then strLeJS as_ bs
    else decide (a.toNat ≤ b.toNat)

/-- `distinct(field).filter(Boolean).sort()` for a scalar string field:
distinct non-empty values, ascending.  (`filter(Boolean)` drops the empty
string; absent fields contribute no value.) -/
def distinctScalar (vals : List (Option String)) : List String :=
  sortBy (fun a b => strLeJS a.data b.data)
    ((vals.filterMap id).dedup.filter (fun s => decide (s ≠ "")))

/-- `distinct(field).flat().filter(Boolean).sort()` for an array field
(Mongo `distinct` already flattens arrays). -/
def distinctArray (vals : List (List String)) : List String :=
  sortBy (fun a b => strLeJS a.data b.data)
    (vals.flatten.dedup.filter (fun s => decide (s ≠ "")))

/-- The `GET /api/filters` handler (lines 219–238): try/catch around the
four distinct queries; a store failure is surfaced as a 500 JSON error. -/
def filtersHandler (storeResult : Except String (List StoredArticle)) :
    HandlerResult FiltersResponse :=
  match storeResult with
  | Except.error e => HandlerResult.errorJson 500 e
  | Except.ok docs =>
    HandlerResult.ok
      { success := true
        languages := distinctScalar (docs.map (fun r => r.language))
        countries := distinctArray (docs.map (fun r => r.country))
        categories := distinctArray (docs.map (fun r => r.category))
        datatypes := distinctScalar (docs.map (fun r => some r.datatype)) }

/-- The JSON body of a successful `GET /api/status` response. -/
structure StatusResponse where
  success : Bool
  totalArticles : Nat
  latestArticle : Option Nat
  dbStatus : String
deriving DecidableEq, Repr

/-- The `GET /api/status` handler (lines 241–250).  The source has no
try/catch here: a rejected store promise escapes the async handler
(`HandlerResult.uncaught`) — Express writes no error response.
`latestArticle` is `latest?.pubDate || null`: the `pubDate` of the
first record sorted by `pubDate` descending, `null` for an empty store or
a falsy `pubDate`. -/
def statusHandler (connected : Bool)
    (storeResult : Except String (List StoredArticle)) :
    HandlerResult StatusResponse :=
  match storeResult with
  | Except.error e => HandlerResult.uncaught e
  | Except.ok docs =>
    HandlerResult.ok
      { success := true
        totalArticles := docs.length
        latestArticle :=
          match (sortByPubDateDesc docs).head? with
          | some r =>
            match r.pubDate with
            | some (some t) => some t
            | _ => none
          | none => none
        dbStatus := if connected then "connected" else "disconnected" }

/-- Extract the articles of a 200 response (empty otherwise). -/
def respArticles (h : HandlerResult NewsResponse) : List StoredArticle :=
  match h with
  | HandlerResult.ok r => r.articles
  | _ => []

/-- Extract the `page` field of a 200 response (`none` otherwise). -/
def respPage (h : HandlerResult NewsResponse) : Option Int :=
  match h with
  | HandlerResult.ok r => r.page
  | _ => none

/-- Extract the `totalPages` field of a 200 response. -/
def respTotalPages (h : HandlerResult NewsResponse) : JSNum :=
  match h with
  | HandlerResult.ok r => r.totalPages
  | _ => JSNum.nan

/-! ### Sample data used by witnesses and counterexamples -/

/-- A raw feed article with the given id and every optional field absent. -/
def rawBase (id : String) : RawArticle :=
  { article_id := id, title := none, link := none, keywords := none
    creator := none, video_url := none, description := none, content := none
    pubDate := none, image_url := none, source_id := none
    source_priority := none, source_url := none, source_icon := none
    language := none, country := none, category := none, ai_tag := none
    sentiment := none, sentiment_stats := none, ai_region := none
    ai_org := none, duplicate := none, datatype := none }

/-- Feed article `a1`: `country ["us"]`, `category ["tech","ai"]`, dated. -/
def rawA1 : RawArticle :=
  { rawBase "a1" with
      title := some "Election Night"
      country := some ["us"], category := some ["tech", "ai"]
      pubDate := some "2000" }

/-- Feed article `a2`: `country ["fr"]`, `category ["tech"]`, older. -/
def rawA2 : RawArticle :=
  { rawBase "a2" with
      title := some "Old news"
      country := some ["fr"], category := some ["tech"]
      pubDate := some "1000" }

/-- Stored record for `a1` (as produced by an upsert at time 1). -/
def recA1 : StoredArticle := insertDoc 1 (buildDoc rawA1)

/-- Stored record for `a2` (as produced by an upsert at time 1). -/
def recA2 : StoredArticle := insertDoc 1 (buildDoc rawA2)

/-! ### C4 — fetch-stage failure leaves the store untouched -/

/-- C4: when the HTTP fetch stage fails, `fetchAndStoreNews` logs the
error and returns normally with the store exactly as before and both
counters zero, and a subsequent scheduled run behaves exactly as if the
failing run had never happened. -/
theorem fetchFailure_leavesStoreUnchanged (now now2 : Nat) (msg : String)
    (o2 : FetchOutcome) (store : List StoredArticle) :
    fetchAndStoreNews now (FetchOutcome.failure msg) store =
      { store := store, inserted := 0, updated := 0
        log := ["[" ++ toString now ++ "] Fetching news from NewsData.io...",
                "Fetch error: " ++ msg] }
  ∧ fetchAndStoreNews now2 o2
      (fetchAndStoreNews now (FetchOutcome.failure msg) store).store
      = fetchAndStoreNews now2 o2 store := by
  exact ⟨rfl, rfl⟩

/-! ### C9 — error surfacing of the three endpoints -/

/-- C9 (amended): a failed store operation is surfaced as a 500 JSON
error by `GET /api/news` and `GET /api/filters` (their try/catch blocks),
but the `GET /api/status` handler has no failure boundary: the rejection
escapes the handler uncaught and no JSON error response is produced. -/
theorem storeFailure_perEndpoint (e : String) (q : NewsQuery) (b : Bool) :
    newsHandler q (Except.error e) = HandlerResult.errorJson 500 e
  ∧ filtersHandler (Except.error e) = HandlerResult.errorJson 500 e
  ∧ statusHandler b (Except.error e) = HandlerResult.uncaught e :=
  ⟨rfl, rfl, rfl⟩

/-- C9 counterexample: a persistence failure during `GET /api/status` is
not surfaced as an error-status JSON response — the handler produces an
uncaught rejection instead of any `{success:false, error}` body. -/
theorem statusFailure_not500_cex :
    statusHandler true (Except.error "store unreachable")
      = HandlerResult.uncaught "store unreachable"
  ∧ ¬ ∃ st m, statusHandler true (Except.error "store unreachable")
      = HandlerResult.errorJson st m := by
  refine ⟨rfl, ?_⟩
  rintro ⟨st, m, h⟩
  simp [statusHandler] at h

/-! ### C3 — non-numeric page/limit do not fall back to the defaults -/

/-- C3 (amended): the destructuring defaults `page = 1`, `limit = 20`
apply only when the parameter is absent.  A present non-numeric value
parses to `NaN`: the computed page, limit and skip are all `NaN`, the
response's `page` field is `NaN` (not the default 1) and `totalPages` is
`NaN`; there is no fall back to the default values. -/
theorem nonNumericPaging_noDefaults (q : NewsQuery) (docs : List StoredArticle)
    (ps ls : String) (hp : q.page = some ps) (hl : q.limit = some ls)
    (h1 : parseIntJS ps = none) (h2 : parseIntJS ls = none) :
    pageParam q = none ∧ limitParam q = none ∧ skipParam q = none ∧
    respPage (newsHandler q (Except.ok docs)) = none ∧
    respTotalPages (newsHandler q (Except.ok docs)) = JSNum.nan ∧
    respPage (newsHandler q (Except.ok docs)) ≠ some 1 := by
  have hpp : pageParam q = none := by simp [pageParam, hp, h1]
  have hll : limitParam q = none := by simp [limitParam, hl, h2]
  refine ⟨hpp, hll, ?_, ?_, ?_, ?_⟩
  · simp [skipParam, hpp, hll, optSub, optMul]
  · simp [newsHandler, respPage, hpp]
  · simp [newsHandler, respTotalPages, hll, jsCeilDiv]
  · simp [newsHandler, respPage, hpp]

/-- The query of a request with non-numeric `page` and `limit`. -/
def qAbc : NewsQuery := { emptyQuery with page := some "abc", limit := some "xyz" }

/-- C3 counterexample: with `page=abc` the handler does not behave as if
`page` had its default value — the response's `page` field is `NaN`
(`none`), while the same request without the parameter yields `page = 1`. -/
theorem nonNumericPaging_cex :
    respPage (newsHandler qAbc (Except.ok [])) = none
  ∧ respPage (newsHandler emptyQuery (Except.ok [])) = some 1
  ∧ respPage (newsHandler qAbc (Except.ok []))
      ≠ respPage (newsHandler emptyQuery (Except.ok []))
  ∧ respTotalPages (newsHandler qAbc (Except.ok [])) = JSNum.nan := by
  decide

/-- Witness for the amended C3 theorem at a concrete request. -/
theorem nonNumericPaging_witness :
    pageParam qAbc = none ∧ limitParam qAbc = none ∧ skipParam qAbc = none ∧
    respPage (newsHandler qAbc (Except.ok [])) = none ∧
    respTotalPages (newsHandler qAbc (Except.ok [])) = JSNum.nan ∧
    respPage (newsHandler qAbc (Except.ok [])) ≠ some 1 :=
  nonNumericPaging_noDefaults qAbc [] "abc" "xyz" (by decide) (by decide)
    (by decide) (by decide)

/-! ### C8 — normalization defaults in `buildDoc` -/

/-- C8 (amended): `buildDoc` coerces the four list fields to `[]` when
absent and defaults `datatype` to `"news"` when absent; `pubDate` becomes
`null` exactly when the source value is absent (or empty, hence falsy),
and otherwise carries the host parser's result — a timestamp when
parseable, the JS `Invalid Date` value (not `null`) when unparseable. -/
theorem buildDoc_normalization (art : RawArticle) :
    (art.keywords = none → (buildDoc art).keywords = [])
  ∧ (art.creator = none → (buildDoc art).creator = [])
  ∧ (art.country = none → (buildDoc art).country = [])
  ∧ (art.category = none → (buildDoc art).category = [])
  ∧ (art.pubDate = none → (buildDoc art).pubDate = none)
  ∧ (∀ s, art.pubDate = some s → s ≠ "" →
      (buildDoc art).pubDate = some (jsDateParse s))
  ∧ (art.datatype = none → (buildDoc art).datatype = "news") := by
  refine ⟨fun h => by simp [buildDoc, h], fun h => by simp [buildDoc, h],
    fun h => by simp [buildDoc, h], fun h => by simp [buildDoc, h],
    fun h => by simp [buildDoc, h], fun s hs hne => by simp [buildDoc, hs, hne],
    fun h => by simp [buildDoc, h]⟩

/-- A feed article whose `pubDate` is present but unparseable. -/
def rawBadDate : RawArticle := { rawBase "bad" with pubDate := some "not-a-date" }

/-- C8 counterexample: a present but unparseable `pubDate` does not
normalize to `null` — the built record carries the invalid-date value. -/
theorem unparseableDate_notNull_cex :
    rawBadDate.pubDate = some "not-a-date"
  ∧ jsDateParse "not-a-date" = none
  ∧ (buildDoc rawBadDate).pubDate ≠ none := by decide

/-- A feed article with every optional field absent. -/
def rawEmptyFields : RawArticle := rawBase "w8"

/-- Witness for the amended C8 theorem at concrete articles. -/
theorem buildDoc_normalization_witness :
    (buildDoc rawEmptyFields).keywords = []
  ∧ (buildDoc rawEmptyFields).creator = []
  ∧ (buildDoc rawEmptyFields).country = []
  ∧ (buildDoc rawEmptyFields).category = []
  ∧ (buildDoc rawEmptyFields).pubDate = none
  ∧ (buildDoc rawEmptyFields).datatype = "news"
  ∧ (buildDoc rawA1).pubDate = some (jsDateParse "2000") :=
  have h := buildDoc_normalization rawEmptyFields
  ⟨h.1 rfl, h.2.1 rfl, h.2.2.1 rfl, h.2.2.2.1 rfl, h.2.2.2.2.1 rfl,
   h.2.2.2.2.2.2 rfl,
   (buildDoc_normalization rawA1).2.2.2.2.2.1 "2000" rfl (by decide)⟩

/-! ### Structural lemmas about `updateOneUpsert` -/

/-- An upsert that traverses a prefix of non-matching records replaces the
first matching record in place and reports a modification iff the record
changed. -/
theorem found_updateOneUpsert (now : Nat) (doc : NormalizedDoc)
    (pre post : List StoredArticle) (r : StoredArticle)
    (hpre : ∀ x ∈ pre, x.article_id ≠ doc.article_id)
    (hid : r.article_id = doc.article_id) :
    updateOneUpsert now doc (pre ++ r :: post) =
      (pre ++ applySet now doc r :: post,
       ⟨0, if applySet now doc r = r then 0 else 1⟩) := by
  induction pre with
  | nil => simp [updateOneUpsert, hid]
  | cons x xs ih =>
    have hx : x.article_id ≠ doc.article_id := hpre x (by simp)
    have ihh := ih (fun y hy => hpre y (by simp [hy]))
    simp [updateOneUpsert, hx, ihh]

/-- An upsert that finds no matching record appends the new document and
reports an insertion. -/
theorem notFound_updateOneUpsert (now : Nat) (doc : NormalizedDoc)
    (s : List StoredArticle)
    (h : ∀ x ∈ s, x.article_id ≠ doc.article_id) :
    updateOneUpsert now doc s = (s ++ [insertDoc now doc], ⟨1, 0⟩) := by
  induction s with
  | nil => simp [updateOneUpsert]
  | cons x xs ih =>
    have hx : x.article_id ≠ doc.article_id := h x (by simp)
    simp [updateOneUpsert, hx, ih (fun y hy => h y (by simp [hy]))]

/-- In a store with unique ids, a member record splits the store into a
prefix and suffix free of its id. -/
theorem decomp_of_mem_nodup (s : List StoredArticle) (r : StoredArticle)
    (hnd : (s.map (fun x => x.article_id)).Nodup) (hr : r ∈ s) :
    ∃ pre post, s = pre ++ r :: post
      ∧ (∀ x ∈ pre, x.article_id ≠ r.article_id)
      ∧ (∀ x ∈ post, x.article_id ≠ r.article_id) := by
  obtain ⟨pre, post, rfl⟩ := List.append_of_mem hr
  rw [List.map_append, List.nodup_append] at hnd
  refine ⟨pre, post, rfl, ?_, ?_⟩
  · intro x hx heq
    exact hnd.2.2 (List.mem_map_of_mem _ hx) (by simp [heq])
  · intro x hx heq
    have h2 := hnd.2.1
    simp only [List.map_cons, List.nodup_cons] at h2
    exact h2.1 (by exact (heq ▸ List.mem_map_of_mem _ hx : r.article_id ∈ post.map (fun y => y.article_id)))

/-! ### C2 — upsert replacement semantics -/

/-- C2 (amended): an upsert for an `article_id` already in the store
rewrites that record in place — fields present in the new payload (and the
always-written fields `keywords`, `creator`, `country`, `category`,
`pubDate`, `datatype`) take the new values, while fields the new payload
omits retain their stored values (Mongoose strips `undefined` from the
`$set`); the id set of the store is unchanged and no record is ever
deleted. -/
theorem upsert_replace_semantics (now : Nat) (doc : NormalizedDoc)
    (s : List StoredArticle) (r : StoredArticle)
    (hnd : (s.map (fun x => x.article_id)).Nodup)
    (hr : r ∈ s) (hid : r.article_id = doc.article_id) :
    applySet now doc r ∈ (updateOneUpsert now doc s).1
  ∧ ((updateOneUpsert now doc s).1.map (fun x => x.article_id)
      = s.map (fun x => x.article_id))
  ∧ (∀ v, doc.title = some v → (applySet now doc r).title = some v)
  ∧ (doc.title = none → (applySet now doc r).title = r.title)
  ∧ (∀ v, doc.description = some v → (applySet now doc r).description = some v)
  ∧ (doc.description = none → (applySet now doc r).description = r.description)
  ∧ (applySet now doc r).keywords = doc.keywords
  ∧ (applySet now doc r).country = doc.country
  ∧ (applySet now doc r).category = doc.category
  ∧ (applySet now doc r).pubDate = doc.pubDate
  ∧ (applySet now doc r).datatype = doc.datatype
  ∧ (∀ x ∈ s, ∃ y ∈ (updateOneUpsert now doc s).1,
      y.article_id = x.article_id) := by
  obtain ⟨pre, post, rfl, hpre, hpost⟩ := decomp_of_mem_nodup _ r hnd hr
  have hup := found_updateOneUpsert now doc pre post r
    (fun x hx => hid ▸ hpre x hx) hid
  have hids : ((updateOneUpsert now doc (pre ++ r :: post)).1.map
      (fun x => x.article_id)) = (pre ++ r :: post).map (fun x => x.article_id) := by
    rw [hup]
    simp [applySet, hid]
  refine ⟨?_, hids, ?_, ?_, ?_, ?_, rfl, rfl, rfl, rfl, rfl, ?_⟩
  · rw [hup]
    simp
  · intro v hv
    simp [applySet, setOpt, hv]
  · intro h
    simp [applySet, setOpt, h]
  · intro v hv
    simp [applySet, setOpt, hv]
  · intro h
    simp [applySet, setOpt, h]
  · intro x hx
    have : x.article_id ∈ ((updateOneUpsert now doc (pre ++ r :: post)).1.map
        (fun y => y.article_id)) := by
      rw [hids]
      exact List.mem_map_of_mem _ hx
    obtain ⟨y, hy, hyx⟩ := List.mem_map.mp this
    exact ⟨y, hy, hyx⟩

/-- The record stored for id `dup` before the second upsert. -/
def recOld : StoredArticle :=
  insertDoc 3 (buildDoc { rawBase "dup" with
    title := some "Old stored title", description := some "old description" })

/-- A later payload for id `dup` that omits `title`. -/
def artOmit : RawArticle :=
  { rawBase "dup" with description := some "new description" }

/-- C2 counterexample: the upsert of a payload omitting `title` does not
perform a full field replacement — the stored title survives, so the
result differs from the record a literal "replace all fields" would
produce. -/
theorem upsert_notFullReplace_cex :
    (updateOneUpsert 7 (buildDoc artOmit) [recOld]).1
      ≠ [specFullReplace 7 (buildDoc artOmit) recOld]
  ∧ (updateOneUpsert 7 (buildDoc artOmit) [recOld]).1.map (fun r => r.title)
      = [some "Old stored title"]
  ∧ (buildDoc artOmit).title = none := by decide

/-- Witness for the amended C2 theorem at a concrete store. -/
theorem upsert_replace_semantics_witness :
    applySet 7 (buildDoc artOmit) recOld
      ∈ (updateOneUpsert 7 (buildDoc artOmit) [recOld]).1 :=
  (upsert_replace_semantics 7 (buildDoc artOmit) [recOld] recOld
    (by decide) (by decide) (by decide)).1

/-! ### C5 — country is disjunctive, category is conjunctive -/

/-- C5: with a comma-separated `country` parameter, a record matches the
country clause iff its stored `country` sequence intersects the parsed
query list (`$in`, disjunctive); with a comma-separated `category`
parameter, a record matches the category clause iff every parsed query
value occurs in its stored `category` sequence (`$all`, conjunctive). -/
theorem countryCategory_filterSemantics (q : NewsQuery) (cq kq : String)
    (r : StoredArticle)
    (hc : q.country = some cq) (hc0 : cq ≠ "")
    (hk : q.category = some kq) (hk0 : kq ≠ "") :
    (evalCountry (filterOf q) r = true ↔ ∃ c ∈ r.country, c ∈ splitParam cq)
  ∧ (evalCategory (filterOf q) r = true ↔ ∀ c ∈ splitParam kq, c ∈ r.category) := by
  have hcy : (filterOf q).countryIn = some (splitParam cq) := by
    simp [filterOf, buildFilter, jsTruthy, hc, hc0]
  have hky : (filterOf q).categoryAll = some (splitParam kq) := by
    simp [filterOf, buildFilter, jsTruthy, hk, hk0]
  constructor
  · simp [evalCountry, hcy, List.any_eq_true]
  · simp [evalCategory, hky, List.all_eq_true]

/-- The query of a request with `country=us,uk` and `category=tech,ai`. -/
def qCC : NewsQuery :=
  { emptyQuery with country := some "us,uk", category := some "tech,ai" }

/-- Witness for C5: the spec's own test vector — `category=tech,ai`
selects only the record with both categories, `country=us,uk` only the
record whose countries intersect the list. -/
theorem countryCategory_witness :
    evalCountry (filterOf qCC) recA1 = true
  ∧ evalCountry (filterOf qCC) recA2 = false
  ∧ evalCategory (filterOf qCC) recA1 = true
  ∧ evalCategory (filterOf qCC) recA2 = false :=
  ⟨(countryCategory_filterSemantics qCC "us,uk" "tech,ai" recA1
      (by decide) (by decide) (by decide) (by decide)).1.mpr (by decide),
   by decide,
   (countryCategory_filterSemantics qCC "us,uk" "tech,ai" recA1
      (by decide) (by decide) (by decide) (by decide)).2.mpr (by decide),
   by decide⟩

/-! ### C10 — query values are lowercased, stored entries compared verbatim -/

/-- Lowering a character never yields an ASCII uppercase letter. -/
theorem isUpperAscii_jsLowerChar (c : Char) :
    isUpperAscii (jsLowerChar c) = false := by
  unfold jsLowerChar
  cases hf : asciiLowerPairs.find? (fun p => p.1 = c) with
  | none =>
    have hall := List.find?_eq_none.mp hf
    show isUpperAscii c = false
    unfold isUpperAscii
    rw [List.any_eq_false]
    intro p hp
    exact hall p hp
  | some p =>
    have hp : p ∈ asciiLowerPairs := List.mem_of_find?_eq_some hf
    have hlow : ∀ x ∈ asciiLowerPairs, isUpperAscii x.2 = false := by decide
    show isUpperAscii p.2 = false
    exact hlow p hp

/-- A lowercased string contains no ASCII uppercase letter. -/
theorem lowerStr_noUpper (s : String) :
    (lowerStr s).data.any isUpperAscii = false := by
  show (s.data.map jsLowerChar).any isUpperAscii = false
  rw [List.any_eq_false]
  intro x hx
  obtain ⟨c, _, rfl⟩ := List.mem_map.mp hx
  simp [isUpperAscii_jsLowerChar]

/-- Every element of a parsed comma-separated query parameter is free of
ASCII uppercase letters. -/
theorem mem_splitParam_noUpper (qs e : String) (he : e ∈ splitParam qs) :
    e.data.any isUpperAscii = false := by
  unfold splitParam at he
  obtain ⟨c, _, rfl⟩ := List.mem_map.mp he
  exact lowerStr_noUpper (jsTrim c)

/-- `split` never yields an empty group list. -/
theorem splitCommaChars_ne_nil (cs : List Char) : splitCommaChars cs ≠ [] := by
  induction cs with
  | nil => simp [splitCommaChars]
  | cons c cs ih =>
    by_cases hc : c = ','
    · simp [splitCommaChars, hc]
    · cases h : splitCommaChars cs with
      | nil => exact absurd h ih
      | cons g gs => simp [splitCommaChars, hc, h]

/-- A parsed comma-separated parameter always has at least one value. -/
theorem splitParam_ne_nil (s : String) : splitParam s ≠ [] := by
  unfold splitParam splitComma
  simp [splitCommaChars_ne_nil]

/-- C10: the handler lowercases (and trims) the `country`/`category`
query values but compares stored entries verbatim, so a stored entry
containing an ASCII uppercase letter is never equal to any parsed query
value; consequently a record all of whose entries contain uppercase
letters matches no country filter and no category filter. -/
theorem queryLowercased_storedVerbatim (q : NewsQuery) (cq kq : String)
    (r : StoredArticle)
    (hc : q.country = some cq) (hc0 : cq ≠ "")
    (hk : q.category = some kq) (hk0 : kq ≠ "")
    (hucountry : ∀ e ∈ r.country, e.data.any isUpperAscii = true)
    (hucat : ∀ e ∈ r.category, e.data.any isUpperAscii = true) :
    (∀ e ∈ r.country, e ∉ splitParam cq)
  ∧ (∀ e ∈ r.category, e ∉ splitParam kq)
  ∧ evalCountry (filterOf q) r = false
  ∧ evalCategory (filterOf q) r = false := by
  have hcy : (filterOf q).countryIn = some (splitParam cq) := by
    simp [filterOf, buildFilter, jsTruthy, hc, hc0]
  have hky : (filterOf q).categoryAll = some (splitParam kq) := by
    simp [filterOf, buildFilter, jsTruthy, hk, hk0]
  have h1 : ∀ e ∈ r.country, e ∉ splitParam cq := by
    intro e he hmem
    have hfalse := mem_splitParam_noUpper cq e hmem
    rw [hucountry e he] at hfalse
    simp at hfalse
  have h2 : ∀ e ∈ r.category, e ∉ splitParam kq := by
    intro e he hmem
    have hfalse := mem_splitParam_noUpper kq e hmem
    rw [hucat e he] at hfalse
    simp at hfalse
  refine ⟨h1, h2, ?_, ?_⟩
  · have heq : evalCountry (filterOf q) r
        = (r.country.any fun c => decide (c ∈ splitParam cq)) := by
      simp [evalCountry, hcy]
    rw [heq, List.any_eq_false]
    intro x hx
    simpa using h1 x hx
  · have hne := splitParam_ne_nil kq
    cases hsp : splitParam kq with
    | nil => exact absurd hsp hne
    | cons c0 rest =>
      have hc0mem : c0 ∈ splitParam kq := by
        rw [hsp]
        exact List.mem_cons_self c0 rest
      have hnotin : c0 ∉ r.category := by
        intro hin
        have hup := hucat c0 hin
        rw [mem_splitParam_noUpper kq c0 hc0mem] at hup
        simp at hup
      have heq : evalCategory (filterOf q) r
          = ((splitParam kq).all fun c => decide (c ∈ r.category)) := by
        simp [evalCategory, hky]
      rw [heq, hsp]
      simp [hnotin]

/-- A stored record whose country/category entries carry uppercase
letters. -/
def recUpper : StoredArticle :=
  insertDoc 1 (buildDoc { rawBase "up" with
    country := some ["US"], category := some ["Tech"] })

/-- The query `country=US&category=Tech` (uppercase on the wire). -/
def qUpper : NewsQuery :=
  { emptyQuery with country := some "US", category := some "Tech" }

/-- Witness for C10: the uppercase-entry record is unreachable even by
the identical uppercase query strings (they are lowercased before
matching). -/
theorem queryLowercased_witness :
    evalCountry (filterOf qUpper) recUpper = false
  ∧ evalCategory (filterOf qUpper) recUpper = false :=
  have h := queryLowercased_storedVerbatim qUpper "US" "Tech" recUpper
    (by decide) (by decide) (by decide) (by decide) (by decide) (by decide)
  ⟨h.2.2.1, h.2.2.2⟩

/-! ### C7 — `search` is a raw regex, not a substring matcher -/

/-- A metacharacter-free pattern compiles to a list of literals. -/
theorem compileRegex_noDot (s : String) (h : ∀ c ∈ s.data, c ≠ '.') :
    compileRegex s = s.data.map RChar.lit := by
  unfold compileRegex
  exact List.map_congr_left fun c hc => by simp [h c hc]

/-- An all-literal pattern matches at the front iff it is a
case-insensitive prefix. -/
theorem matchHere_lit (xs : List Char) : ∀ t : List Char,
    (matchHere (xs.map RChar.lit) t = true ↔
      xs.map jsLowerChar <+: t.map jsLowerChar) := by
  induction xs with
  | nil =>
    intro t
    simp [matchHere]
  | cons x xs ih =>
    intro t
    cases t with
    | nil => simp [matchHere]
    | cons c cs =>
      simp [matchHere, rcharMatches, List.cons_prefix_cons, ih cs]

/-- An all-literal pattern is found somewhere iff it is a case-insensitive
infix. -/
theorem regexSearch_lit (xs : List Char) : ∀ t : List Char,
    (regexSearch (xs.map RChar.lit) t = true ↔
      xs.map jsLowerChar <:+: t.map jsLowerChar) := by
  intro t
  induction t with
  | nil =>
    simp [regexSearch, matchHere_lit]
  | cons c cs ih =>
    simp only [regexSearch, Bool.or_eq_true, matchHere_lit, ih, List.map_cons,
      List.infix_cons_iff]

/-- C7 (amended): the raw `search` string is passed to the store as a
case-insensitive regular-expression pattern.  For every search string
free of PCRE regex metacharacters (`pcreMetachars` — on such strings the
model and PCRE agree, both matching the pattern literally) this coincides
with case-insensitive substring matching against `title` or
`description`; with metacharacters in the string the two notions diverge
(see the counterexample). -/
theorem search_substringSemantics (q : NewsQuery) (s : String)
    (r : StoredArticle) (hs : q.search = some s) (h0 : s ≠ "")
    (hnd : ∀ c ∈ s.data, c ∉ pcreMetachars) :
    (evalSearch (filterOf q) r = true ↔
      (∃ t, r.title = some t ∧ containsCI s t)
      ∨ (∃ d, r.description = some d ∧ containsCI s d)) := by
  have hso : (filterOf q).searchOr = some s := by
    simp [filterOf, buildFilter, jsTruthy, hs, h0]
  have hdot : ∀ c ∈ s.data, c ≠ '.' := by
    intro c hc heq
    exact hnd c hc (heq ▸ (by decide : '.' ∈ pcreMetachars))
  have hcomp := compileRegex_noDot s hdot
  unfold evalSearch
  rw [hso]
  cases ht : r.title <;> cases hd : r.description <;>
    simp [hcomp, regexSearch_lit, containsCI]

/-- The query `search=a.c` (a pattern with the `.` metacharacter). -/
def q7 : NewsQuery := { emptyQuery with search := some "a.c" }

/-- A record whose title is `abc`. -/
def rec7 : StoredArticle :=
  insertDoc 1 (buildDoc { rawBase "r7" with title := some "abc" })

/-- C7 counterexample: `search=a.c` matches the record titled `abc`
although `a.c` is not a substring of the title (nor of the absent
description) — the search string is interpreted as a regex, not escaped
to a literal substring. -/
theorem search_regexNotSubstring_cex :
    evalSearch (filterOf q7) rec7 = true
  ∧ ¬ containsCI "a.c" "abc"
  ∧ rec7.description = none := by
  decide

/-- The query `search=election`. -/
def qSearch : NewsQuery := { emptyQuery with search := some "election" }

/-- Witness for the amended C7 theorem: a search string free of every
PCRE metacharacter is substring matching — `search=election` matches the
record whose title contains "Election" case-insensitively. -/
theorem search_substringSemantics_witness :
    evalSearch (filterOf qSearch) recA1 = true :=
  (search_substringSemantics qSearch "election" recA1 (by decide) (by decide)
    (by decide)).mpr (Or.inl ⟨"Election Night", by decide, by decide⟩)

/-! ### C6 — pagination arithmetic -/

/-- Membership in an insertion step. -/
theorem mem_insertSortedBy {α : Type} (le : α → α → Bool) (a y : α) :
    ∀ l : List α, (y ∈ insertSortedBy le a l ↔ y = a ∨ y ∈ l) := by
  intro l
  induction l with
  | nil => simp [insertSortedBy]
  | cons x xs ih =>
    by_cases h : le a x = true
    · simp [insertSortedBy, h]
    · simp [insertSortedBy, h, ih]
      tauto

/-- Inserting into a sorted list keeps it sorted (for a transitive, total
boolean relation). -/
theorem pairwise_insertSortedBy {α : Type} (le : α → α → Bool)
    (htr : ∀ a b c, le a b = true → le b c = true → le a c = true)
    (hto : ∀ a b, le a b = true ∨ le b a = true) (a : α) :
    ∀ l : List α, List.Pairwise (fun x y => le x y = true) l →
      List.Pairwise (fun x y => le x y = true) (insertSortedBy le a l) := by
  intro l
  induction l with
  | nil =>
    intro _
    simp [insertSortedBy]
  | cons x xs ih =>
    intro hl
    rw [List.pairwise_cons] at hl
    by_cases h : le a x = true
    · have hax : ∀ y ∈ x :: xs, le a y = true := by
        intro y hy
        rcases List.mem_cons.mp hy with rfl | hy'
        · exact h
        · exact htr a x y h (hl.1 y hy')
      have hresult : insertSortedBy le a (x :: xs) = a :: x :: xs := by
        simp [insertSortedBy, h]
      rw [hresult, List.pairwise_cons]
      exact ⟨hax, List.pairwise_cons.mpr hl⟩
    · have hxa : le x a = true := (hto a x).resolve_left h
      have hresult : insertSortedBy le a (x :: xs) = x :: insertSortedBy le a xs := by
        simp [insertSortedBy, h]
      rw [hresult, List.pairwise_cons]
      constructor
      · intro y hy
        rcases (mem_insertSortedBy le a y xs).mp hy with rfl | hy'
        · exact hxa
        · exact hl.1 y hy'
      · exact ih hl.2

/-- Insertion sort sorts (for a transitive, total boolean relation). -/
theorem pairwise_sortBy {α : Type} (le : α → α → Bool)
    (htr : ∀ a b c, le a b = true → le b c = true → le a c = true)
    (hto : ∀ a b, le a b = true ∨ le b a = true) :
    ∀ l : List α, List.Pairwise (fun x y => le x y = true) (sortBy le l) := by
  intro l
  induction l with
  | nil => simp [sortBy]
  | cons x xs ih =>
    simp only [sortBy]
    exact pairwise_insertSortedBy le htr hto x _ ih

/-- `(t + k - 1) / k` is the rational ceiling of `t / k` for `k ≥ 1`. -/
theorem ceil_div_eq (t k : Nat) (hk : 1 ≤ k) :
    (⌈(t : ℚ) / (k : ℚ)⌉ = (((t + k - 1) / k : Nat) : Int)) := by
  have h0 : (0:ℚ) < (k:ℚ) := by positivity
  rw [Int.ceil_eq_iff]
  have h1 := Nat.div_add_mod (t + k - 1) k
  have h2 := Nat.mod_lt (t + k - 1) (show 0 < k by omega)
  set q := (t + k - 1) / k with hq
  have hA : t ≤ k * q := by omega
  have hB : k * q < t + k := by omega
  have hA' : (t:ℚ) ≤ (q:ℚ) * k := by
    rw [mul_comm]
    exact_mod_cast hA
  have hB' : (q:ℚ) * k < (t:ℚ) + k := by
    calc (q:ℚ) * k = ((k * q : ℕ) : ℚ) := by push_cast; ring
    _ < (t:ℚ) + k := by exact_mod_cast hB
  constructor
  · rw [lt_div_iff₀ h0]
    push_cast
    linarith
  · rw [div_le_iff₀ h0]
    push_cast
    linarith

/-- C6 (amended, for limit ≥ 1): with numeric `page` p ≥ 1 and numeric
`limit` l ≥ 1, the 200 response lists the matching records sorted by
`pubDate` descending with the first `(p-1)*l` rows skipped and at most
`l` rows returned, `total` is the full match count and `totalPages` is
`⌈total / l⌉`.  (At l = 0 the store applies no row cap and the formula
has no value — see the counterexample.) -/
theorem news_paginationSemantics (q : NewsQuery) (docs : List StoredArticle)
    (ps ls : String) (p l : Int)
    (hp : q.page = some ps) (hpp : parseIntJS ps = some p) (hp1 : 1 ≤ p)
    (hl : q.limit = some ls) (hlp : parseIntJS ls = some l) (hl1 : 1 ≤ l) :
    ∃ resp, newsHandler q (Except.ok docs) = HandlerResult.ok resp
      ∧ resp.total = (docs.filter (fun r => evalFilter (filterOf q) r)).length
      ∧ resp.page = some p
      ∧ resp.articles =
          ((sortByPubDateDesc (docs.filter (fun r => evalFilter (filterOf q) r))).drop
            ((p - 1).toNat * l.toNat)).take l.toNat
      ∧ resp.articles.length ≤ l.toNat
      ∧ List.Pairwise (fun a b => sortKey b ≤ sortKey a) resp.articles
      ∧ resp.totalPages = JSNum.num
          ⌈((docs.filter (fun r => evalFilter (filterOf q) r)).length : ℚ) / (l : ℚ)⌉ := by
  have hpq : pageParam q = some p := by simp [pageParam, hp, hpp]
  have hlq : limitParam q = some l := by simp [limitParam, hl, hlp]
  have hsk : skipParam q = some ((p - 1) * l) := by
    simp [skipParam, hpq, hlq, optSub, optMul]
  have hl0 : l ≠ 0 := by omega
  have hmul : ((p - 1) * l).toNat = (p - 1).toNat * l.toNat := by
    have h1 : (0:Int) ≤ p - 1 := by omega
    have h2 : (0:Int) ≤ l := by omega
    conv_lhs => rw [show p - 1 = ((p - 1).toNat : Int) from (Int.toNat_of_nonneg h1).symm,
      show l = (l.toNat : Int) from (Int.toNat_of_nonneg h2).symm]
    rw [← Nat.cast_mul, Int.toNat_natCast]
  have harts : findSortedPage (docs.filter (fun r => evalFilter (filterOf q) r))
      (skipParam q) (limitParam q) =
      ((sortByPubDateDesc (docs.filter (fun r => evalFilter (filterOf q) r))).drop
        ((p - 1).toNat * l.toNat)).take l.toNat := by
    rw [hsk, hlq]
    unfold findSortedPage
    simp [hl0, hmul]
  have htr : ∀ a b c : StoredArticle, descByPubDate a b = true →
      descByPubDate b c = true → descByPubDate a c = true := by
    intro a b c hab hbc
    simp only [descByPubDate, decide_eq_true_eq] at *
    omega
  have hto : ∀ a b : StoredArticle,
      descByPubDate a b = true ∨ descByPubDate b a = true := by
    intro a b
    simp only [descByPubDate, decide_eq_true_eq]
    omega
  have hPW : List.Pairwise (fun a b => sortKey b ≤ sortKey a)
      (sortByPubDateDesc (docs.filter (fun r => evalFilter (filterOf q) r))) := by
    have h := pairwise_sortBy descByPubDate htr hto
      (docs.filter (fun r => evalFilter (filterOf q) r))
    exact h.imp (fun hxy => by simpa [descByPubDate] using hxy)
  have hcast : ((l.toNat : ℚ)) = (l : ℚ) := by
    have h := Int.toNat_of_nonneg (show (0:Int) ≤ l by omega)
    exact_mod_cast congrArg (fun z : Int => (z : ℚ)) h
  have hlt1 : 1 ≤ l.toNat := by omega
  refine ⟨_, rfl, rfl, hpq, harts, ?_, ?_, ?_⟩
  · show (findSortedPage (docs.filter (fun r => evalFilter (filterOf q) r))
      (skipParam q) (limitParam q)).length ≤ l.toNat
    rw [harts]
    exact List.length_take_le _ _
  · show List.Pairwise (fun a b => sortKey b ≤ sortKey a)
      (findSortedPage (docs.filter (fun r => evalFilter (filterOf q) r))
        (skipParam q) (limitParam q))
    rw [harts]
    exact List.Pairwise.sublist
      ((List.take_sublist _ _).trans (List.drop_sublist _ _)) hPW
  · show jsCeilDiv (docs.filter (fun r => evalFilter (filterOf q) r)).length
      (limitParam q) = _
    rw [hlq]
    unfold jsCeilDiv
    simp only [hl0, if_false, show (0:Int) < l from by omega, if_true]
    rw [← hcast]
    rw [ceil_div_eq _ _ hlt1]

/-- The query `page=1&limit=0`. -/
def qZero : NewsQuery := { emptyQuery with page := some "1", limit := some "0" }

/-- C6 counterexample: `limit=0` is numeric, but the store applies no row
cap (`cursor.limit(0)` means "no limit"), so more than `l = 0` rows come
back, and `totalPages` is `Infinity`, not a ceiling. -/
theorem limitZero_noRowCap_cex :
    parseIntJS "0" = some 0
  ∧ (respArticles (newsHandler qZero (Except.ok [recA1]))).length = 1
  ∧ ¬ ((respArticles (newsHandler qZero (Except.ok [recA1]))).length ≤ 0)
  ∧ respTotalPages (newsHandler qZero (Except.ok [recA1])) = JSNum.posInf := by
  decide

/-- The query `page=2&limit=1`. -/
def q2 : NewsQuery := { emptyQuery with page := some "2", limit := some "1" }

/-- Witness for the amended C6 theorem: `page=2&limit=1` over a store of
exactly two records returns exactly the second-newest record and
`totalPages = 2`. -/
theorem news_pagination_witness :
    respArticles (newsHandler q2 (Except.ok [recA1, recA2])) = [recA2]
  ∧ respTotalPages (newsHandler q2 (Except.ok [recA1, recA2])) = JSNum.num 2 := by
  obtain ⟨resp, heq, -, -, harts, -, -, -⟩ :=
    news_paginationSemantics q2 [recA1, recA2] "2" "1" 2 1 (by decide) (by decide)
      (by decide) (by decide) (by decide) (by decide)
  refine ⟨?_, by decide⟩
  rw [heq]
  show resp.articles = [recA2]
  rw [harts]
  decide

/-! ### C1 — the upsert algebra behind two-run idempotence -/

/-- Setting a present value twice is the same as once. -/
theorem setOpt_setOpt {α : Type} (a b : Option α) :
    setOpt a (setOpt a b) = setOpt a b := by
  cases a <;> rfl

/-- Setting a value over itself is the identity. -/
theorem setOpt_self {α : Type} (a : Option α) : setOpt a a = a := by
  cases a <;> rfl

/-- Re-applying the same `$set` only refreshes `updatedAt`. -/
theorem applySet_applySet (m n : Nat) (doc : NormalizedDoc) (r : StoredArticle) :
    applySet m doc (applySet n doc r) = { applySet n doc r with updatedAt := m } := by
  simp [applySet, setOpt_setOpt]

/-- Applying the `$set` to the document it inserted only refreshes
`updatedAt`. -/
theorem applySet_insertDoc (m n : Nat) (doc : NormalizedDoc) :
    applySet m doc (insertDoc n doc) = { insertDoc n doc with updatedAt := m } := by
  simp [applySet, insertDoc, setOpt_self]

/-- A stored record has absorbed `doc` at time `t`: it carries `doc`'s
id, was last written at `t`, and re-applying the same `$set` changes
nothing but `updatedAt`. -/
def Settled (doc : NormalizedDoc) (t : Nat) (r : StoredArticle) : Prop :=
  r.article_id = doc.article_id ∧ r.updatedAt = t ∧
  ∀ m, applySet m doc r = { r with updatedAt := m }

/-- The record written by an update is settled. -/
theorem settled_applySet (doc : NormalizedDoc) (n : Nat) (r : StoredArticle) :
    Settled doc n (applySet n doc r) :=
  ⟨rfl, rfl, fun m => applySet_applySet m n doc r⟩

/-- The record written by an insert is settled. -/
theorem settled_insertDoc (doc : NormalizedDoc) (n : Nat) :
    Settled doc n (insertDoc n doc) :=
  ⟨rfl, rfl, fun m => applySet_insertDoc m n doc⟩

/-- The id multiset after an upsert: unchanged when the id was present,
extended by the new id otherwise. -/
theorem ids_updateOneUpsert (now : Nat) (doc : NormalizedDoc) :
    ∀ s : List StoredArticle,
      (updateOneUpsert now doc s).1.map (fun x => x.article_id) =
        if doc.article_id ∈ s.map (fun x => x.article_id)
        then s.map (fun x => x.article_id)
        else s.map (fun x => x.article_id) ++ [doc.article_id] := by
  intro s
  induction s with
  | nil => simp [updateOneUpsert, insertDoc]
  | cons r rs ih =>
    by_cases h : r.article_id = doc.article_id
    · simp [updateOneUpsert, h, applySet]
    · have hne : doc.article_id ≠ r.article_id := fun heq => h heq.symm
      by_cases hm : doc.article_id ∈ rs.map (fun x => x.article_id)
      · simp [updateOneUpsert, h, hne, hm, ih]
      · simp [updateOneUpsert, h, hne, hm, ih]

/-- An upsert preserves uniqueness of ids. -/
theorem nodup_updateOneUpsert (now : Nat) (doc : NormalizedDoc)
    (s : List StoredArticle)
    (h : (s.map (fun x => x.article_id)).Nodup) :
    ((updateOneUpsert now doc s).1.map (fun x => x.article_id)).Nodup := by
  rw [ids_updateOneUpsert]
  by_cases hm : doc.article_id ∈ s.map (fun x => x.article_id)
  · simp [hm, h]
  · rw [if_neg hm, List.nodup_append]
    refine ⟨h, by simp, ?_⟩
    intro a ha hamem
    simp only [List.mem_singleton] at hamem
    subst hamem
    exact hm ha

/-- A record whose id differs from the upserted one survives unchanged. -/
theorem mem_updateOneUpsert_of_ne (now : Nat) (doc : NormalizedDoc)
    (r : StoredArticle) :
    ∀ s, r ∈ s → r.article_id ≠ doc.article_id →
      r ∈ (updateOneUpsert now doc s).1 := by
  intro s
  induction s with
  | nil =>
    intro h _
    exact absurd h (List.not_mem_nil r)
  | cons x xs ih =>
    intro hr hne
    by_cases hx : x.article_id = doc.article_id
    · have hrxs : r ∈ xs := by
        rcases List.mem_cons.mp hr with rfl | h
        · exact absurd hx hne
        · exact h
      simp only [updateOneUpsert, hx, if_pos, List.mem_cons]
      exact Or.inr hrxs
    · rcases List.mem_cons.mp hr with rfl | h
      · simp [updateOneUpsert, hx]
      · have hmem := ih h hne
        simp only [updateOneUpsert, hx, if_false, ite_false, List.mem_cons]
        exact Or.inr hmem

/-- A record whose id occurs in no batch article survives the whole
batch. -/
theorem mem_storeBatch_of_ne (now : Nat) (r : StoredArticle) :
    ∀ (arts : List RawArticle) (s : List StoredArticle), r ∈ s →
      (∀ a ∈ arts, r.article_id ≠ (buildDoc a).article_id) →
      r ∈ (storeBatch now arts s).1 := by
  intro arts
  induction arts with
  | nil =>
    intro s hr _
    simpa [storeBatch] using hr
  | cons a rest ih =>
    intro s hr hne
    have h1 : r ∈ (updateOneUpsert now (buildDoc a) s).1 :=
      mem_updateOneUpsert_of_ne now (buildDoc a) r s hr (hne a (by simp))
    exact ih (updateOneUpsert now (buildDoc a) s).1 h1
      (fun a' ha' => hne a' (by simp [ha']))

/-- A batch preserves uniqueness of ids. -/
theorem nodup_storeBatch (now : Nat) :
    ∀ (arts : List RawArticle) (s : List StoredArticle),
      (s.map (fun x => x.article_id)).Nodup →
      ((storeBatch now arts s).1.map (fun x => x.article_id)).Nodup := by
  intro arts
  induction arts with
  | nil =>
    intro s h
    simpa [storeBatch] using h
  | cons a rest ih =>
    intro s h
    exact ih _ (nodup_updateOneUpsert now (buildDoc a) s h)

/-- After a batch run at time `now`, every batch article has a settled
record in the store (unique ids assumed on both sides). -/
theorem storeBatch_settles (now : Nat) :
    ∀ (arts : List RawArticle) (s : List StoredArticle),
      (s.map (fun x => x.article_id)).Nodup →
      ((arts.map (fun a => a.article_id)).Nodup) →
      ∀ a ∈ arts, ∃ r ∈ (storeBatch now arts s).1, Settled (buildDoc a) now r := by
  intro arts
  induction arts with
  | nil =>
    intro s _ _ a ha
    exact absurd ha (List.not_mem_nil a)
  | cons a0 rest ih =>
    intro s hs hnd a ha
    have hnd' := hnd
    rw [List.map_cons, List.nodup_cons] at hnd'
    have hs1nd : (((updateOneUpsert now (buildDoc a0) s).1.map
        (fun x => x.article_id)).Nodup) :=
      nodup_updateOneUpsert now (buildDoc a0) s hs
    rcases List.mem_cons.mp ha with rfl | hmem
    · -- the head article: its upsert writes a settled record which the
      -- remaining upserts (all with different ids) do not touch
      have hmain : ∃ r1 ∈ (updateOneUpsert now (buildDoc a) s).1,
          Settled (buildDoc a) now r1 := by
        by_cases hex : ∃ r0 ∈ s, r0.article_id = (buildDoc a).article_id
        · obtain ⟨r0, hr0, hid0⟩ := hex
          obtain ⟨pre, post, rfl, hpre, hpost⟩ := decomp_of_mem_nodup s r0 hs hr0
          have hup := found_updateOneUpsert now (buildDoc a) pre post r0
            (fun x hx => hid0 ▸ hpre x hx) hid0
          refine ⟨applySet now (buildDoc a) r0, ?_, settled_applySet _ now r0⟩
          rw [hup]
          simp
        · push_neg at hex
          have hup := notFound_updateOneUpsert now (buildDoc a) s hex
          refine ⟨insertDoc now (buildDoc a), ?_, settled_insertDoc _ now⟩
          rw [hup]
          simp
      obtain ⟨r1, hr1, hset1⟩ := hmain
      refine ⟨r1, ?_, hset1⟩
      exact mem_storeBatch_of_ne now r1 rest _ hr1
        (fun a' ha' heq => hnd'.1 (by
          have : a.article_id = a'.article_id := by
            have h1 : r1.article_id = (buildDoc a).article_id := hset1.1
            rw [h1] at heq
            exact heq
          exact this ▸ List.mem_map_of_mem _ ha'))
    · exact ih (updateOneUpsert now (buildDoc a0) s).1 hs1nd hnd'.2 a hmem

/-- A run over a batch whose every article is already settled at an
earlier time `t ≠ now` performs no insertion, one modification per
article, and leaves the id list unchanged. -/
theorem storeBatch_allSettled (now t : Nat) (hne : t ≠ now) :
    ∀ (arts : List RawArticle) (s : List StoredArticle),
      (s.map (fun x => x.article_id)).Nodup →
      ((arts.map (fun a => a.article_id)).Nodup) →
      (∀ a ∈ arts, ∃ r ∈ s, Settled (buildDoc a) t r) →
      ((storeBatch now arts s).1.map (fun x => x.article_id)
        = s.map (fun x => x.article_id))
      ∧ (storeBatch now arts s).2.1 = 0
      ∧ (storeBatch now arts s).2.2 = arts.length := by
  intro arts
  induction arts with
  | nil =>
    intro s _ _ _
    exact ⟨rfl, rfl, rfl⟩
  | cons a0 rest ih =>
    intro s hs hnd hsettled
    have hnd' := hnd
    rw [List.map_cons, List.nodup_cons] at hnd'
    obtain ⟨r, hr, hid, hupd, habs⟩ := hsettled a0 (by simp)
    obtain ⟨pre, post, rfl, hpre, hpost⟩ := decomp_of_mem_nodup _ r hs hr
    have hup := found_updateOneUpsert now (buildDoc a0) pre post r
      (fun x hx => hid ▸ hpre x hx) hid
    have heqr : applySet now (buildDoc a0) r = { r with updatedAt := now } :=
      habs now
    have hneq : applySet now (buildDoc a0) r ≠ r := by
      rw [heqr]
      intro hcontra
      have hnow : now = r.updatedAt := congrArg StoredArticle.updatedAt hcontra
      omega
    have hids1 : ((pre ++ applySet now (buildDoc a0) r :: post).map
        (fun x => x.article_id))
        = ((pre ++ r :: post).map (fun x => x.article_id)) := by
      simp [applySet, ← hid]
    have hs1nd : (((pre ++ applySet now (buildDoc a0) r :: post).map
        (fun x => x.article_id)).Nodup) := by
      rw [hids1]
      exact hs
    have hrest : ∀ a ∈ rest, ∃ r' ∈ pre ++ applySet now (buildDoc a0) r :: post,
        Settled (buildDoc a) t r' := by
      intro a haa
      obtain ⟨r', hr', hset'⟩ := hsettled a (by simp [haa])
      have hne2 : r'.article_id ≠ r.article_id := by
        have h1 : r'.article_id = a.article_id := hset'.1
        have h2 : r.article_id = a0.article_id := hid
        have h3 : a.article_id ≠ a0.article_id := by
          intro hcontra
          exact hnd'.1 (hcontra ▸ List.mem_map_of_mem _ haa)
        rw [h1, h2]
        exact h3
      refine ⟨r', ?_, hset'⟩
      rcases List.mem_append.mp hr' with hin | htail
      · exact List.mem_append.mpr (Or.inl hin)
      · rcases List.mem_cons.mp htail with rfl | hpost'
        · exact absurd rfl hne2
        · exact List.mem_append.mpr (Or.inr (List.mem_cons_of_mem _ hpost'))
    have ihres := ih (pre ++ applySet now (buildDoc a0) r :: post) hs1nd
      hnd'.2 hrest
    refine ⟨?_, ?_, ?_⟩
    · show ((storeBatch now rest
        (updateOneUpsert now (buildDoc a0) (pre ++ r :: post)).1).1.map
        (fun x => x.article_id)) = _
      rw [hup]
      rw [ihres.1, hids1]
    · show (if (updateOneUpsert now (buildDoc a0)
          (pre ++ r :: post)).2.upsertedCount ≠ 0
        then (storeBatch now rest
          (updateOneUpsert now (buildDoc a0) (pre ++ r :: post)).1).2.1 + 1
        else (storeBatch now rest
          (updateOneUpsert now (buildDoc a0) (pre ++ r :: post)).1).2.1) = 0
      rw [hup]
      simp only [if_neg hneq]
      simpa using ihres.2.1
    · show (if (updateOneUpsert now (buildDoc a0)
            (pre ++ r :: post)).2.upsertedCount = 0
          ∧ (updateOneUpsert now (buildDoc a0)
            (pre ++ r :: post)).2.modifiedCount ≠ 0
        then (storeBatch now rest
          (updateOneUpsert now (buildDoc a0) (pre ++ r :: post)).1).2.2 + 1
        else (storeBatch now rest
          (updateOneUpsert now (buildDoc a0) (pre ++ r :: post)).1).2.2)
        = (a0 :: rest).length
      rw [hup]
      simp only [if_neg hneq]
      simpa using ihres.2.2

/-- C1: running the ingestion job twice on the same upstream batch is
idempotent — after the second run the store still has no two records with
the same `article_id`, and the second run inserts nothing: every article,
already present with an identical payload, increments only the `updated`
counter (the schema's `{timestamps: true}` refreshes `updatedAt`, so the
driver reports a modification). -/
theorem ingestion_idempotent (arts : List RawArticle)
    (store : List StoredArticle) (now1 now2 : Nat)
    (hs : (store.map (fun x => x.article_id)).Nodup)
    (ha : ((arts.map (fun a => a.article_id)).Nodup))
    (hne : now2 ≠ now1) :
    (((fetchAndStoreNews now2 (FetchOutcome.success (some arts))
        (fetchAndStoreNews now1 (FetchOutcome.success (some arts)) store).store).store.map
        (fun x => x.article_id)).Nodup)
  ∧ (fetchAndStoreNews now2 (FetchOutcome.success (some arts))
      (fetchAndStoreNews now1 (FetchOutcome.success (some arts)) store).store).inserted = 0
  ∧ (fetchAndStoreNews now2 (FetchOutcome.success (some arts))
      (fetchAndStoreNews now1 (FetchOutcome.success (some arts)) store).store).updated
      = arts.length := by
  cases arts with
  | nil =>
    simpa [fetchAndStoreNews] using hs
  | cons a0 rest =>
    have hs1nd : (((storeBatch now1 (a0 :: rest) store).1.map
        (fun x => x.article_id)).Nodup) :=
      nodup_storeBatch now1 (a0 :: rest) store hs
    have hsettled : ∀ a ∈ a0 :: rest,
        ∃ r ∈ (storeBatch now1 (a0 :: rest) store).1, Settled (buildDoc a) now1 r :=
      storeBatch_settles now1 (a0 :: rest) store hs ha
    have hrun2 := storeBatch_allSettled now2 now1 (fun h => hne h.symm)
      (a0 :: rest) (storeBatch now1 (a0 :: rest) store).1 hs1nd ha hsettled
    have hstore1 : (fetchAndStoreNews now1 (FetchOutcome.success (some (a0 :: rest)))
        store).store = (storeBatch now1 (a0 :: rest) store).1 := rfl
    refine ⟨?_, ?_, ?_⟩
    · show (((storeBatch now2 (a0 :: rest)
        (fetchAndStoreNews now1 (FetchOutcome.success (some (a0 :: rest)))
          store).store).1.map (fun x => x.article_id)).Nodup)
      rw [hstore1, hrun2.1]
      exact hs1nd
    · show (storeBatch now2 (a0 :: rest)
        (fetchAndStoreNews now1 (FetchOutcome.success (some (a0 :: rest)))
          store).store).2.1 = 0
      rw [hstore1]
      exact hrun2.2.1
    · show (storeBatch now2 (a0 :: rest)
        (fetchAndStoreNews now1 (FetchOutcome.success (some (a0 :: rest)))
          store).store).2.2 = (a0 :: rest).length
      rw [hstore1]
      exact hrun2.2.2

/-- Witness for C1: two runs over the two-article sample batch starting
from the empty store — the second run reports 0 inserted, 2 updated, and
the store keeps unique ids. -/
theorem ingestion_idempotent_witness :
    (((fetchAndStoreNews 2 (FetchOutcome.success (some [rawA1, rawA2]))
        (fetchAndStoreNews 1 (FetchOutcome.success (some [rawA1, rawA2])) []).store).store.map
        (fun x => x.article_id)).Nodup)
  ∧ (fetchAndStoreNews 2 (FetchOutcome.success (some [rawA1, rawA2]))
      (fetchAndStoreNews 1 (FetchOutcome.success (some [rawA1, rawA2])) []).store).inserted = 0
  ∧ (fetchAndStoreNews 2 (FetchOutcome.success (some [rawA1, rawA2]))
      (fetchAndStoreNews 1 (FetchOutcome.success (some [rawA1, rawA2])) []).store).updated = 2 :=
  ingestion_idempotent [rawA1, rawA2] [] 1 2 (by decide) (by decide) (by decide)
